import Mathlib

/-!
Verification of the bpf-oci artifact-transfer library (src/lib.rs, src/auth.rs,
src/wasm.rs) against its natural-language specification.

Modelling conventions:
- Rust strings that only flow through credential encoding/decoding are modelled
  as byte lists (`List Nat`, each element a byte value `< 256`); `Rust`'s
  `String::from_utf8_lossy` is modelled by `fromUtf8Lossy`, which returns the
  UTF-8 bytes of the resulting string (identity on valid UTF-8 input, the
  replacement-character bytes `EF BF BD` on an invalid byte).
- External capabilities (the `oci_distribution` registry client, `url::Url`
  parsing, `wasmparser::validate`, the filesystem) are passed in as explicit
  parameters or environment records; the library's own control flow around them
  is translated literally from the source.
- Fallible Rust functions returning `anyhow::Result` become `Except String`,
  with the literal `anyhow!`/`context` message strings.
- Side-effecting flows additionally return an explicit file state and an event
  trace so that ordering claims ("before any network call") are statable.
-/

namespace BpfOci

/-- Model of a parsed `url::Url` value: the accessor results the library reads
(`scheme()`, `username()`, `password()`, `host_str()`, `path()`). Username and
password are byte lists (see module conventions). -/
structure Url where
  scheme : String
  username : List Nat
  password : Option (List Nat)
  host : Option String
  path : String
deriving DecidableEq

/-- Model of `oci_distribution::client::ClientProtocol` (http/https transport). -/
inductive ClientProtocol
  | Http
  | Https
deriving DecidableEq

/-- Model of an `oci_distribution::Reference`: the accessors used by the code
are `registry()`, `repository()` and `tag()`. -/
structure Reference where
  registry : String
  repository : String
  tag : Option String
deriving DecidableEq

/-- Model of `oci_distribution::secrets::RegistryAuth` (only `Basic` is used). -/
inductive RegistryAuth
  | Basic (user pwd : List Nat)
deriving DecidableEq

/-- Model of `oci_distribution::client::ImageLayer` as built by the code. -/
structure ImageLayer where
  data : List Nat
  media_type : String
deriving DecidableEq

/-- Model of `oci_distribution::client::Config` as built by the code. -/
structure Config where
  data : List Nat
  media_type : String
deriving DecidableEq

/-- Model of the part of the registry pull response the code reads: its list of
layers. -/
structure ImageData where
  layers : List ImageLayer
deriving DecidableEq

/-- Model of the registry push response: the code reads `resp.manifest_url`. -/
structure PushResponse where
  manifest_url : String
deriving DecidableEq

/-- Observable steps of a push/pull/login invocation, used to state ordering
properties ("no network call happened before/after ..."). -/
inductive Event
  | checkFile
  | readFile
  | validateWasm
  | deriveRef
  | netPush
  | netPull
  | openOutFile
  | writeOutFile
deriving DecidableEq

/-- Steps that touch the registry client or derive the client/reference from
the URL: client/reference derivation, and the network push/pull operations
(authentication happens inside the latter two). -/
def registryStep : Event → Bool
  | Event.deriveRef => true
  | Event.netPush => true
  | Event.netPull => true
  | _ => false

/-- Fixed wasm layer media type `oci_distribution::manifest::WASM_LAYER_MEDIA_TYPE`. -/
def WASM_LAYER_MEDIA_TYPE : String := "application/vnd.wasm.content.layer.v1+wasm"

/-- Fixed wasm config media type `oci_distribution::manifest::WASM_CONFIG_MEDIA_TYPE`. -/
def WASM_CONFIG_MEDIA_TYPE : String := "application/vnd.wasm.config.v1+json"

/-! ## lib.rs helpers -/

/-- Translation of `default_schema_port` (src/lib.rs lines 25-31). -/
def default_schema_port (schema : String) : Except String Nat :=
  if schema = "http" then Except.ok 80
  else if schema = "https" then Except.ok 443
  else Except.error ("unknown schema " ++ schema)

/-- Translation of `get_client` (src/lib.rs lines 34-45): only the protocol
choice is observable in the model, the rest of the client config is defaulted. -/
def get_client (url : Url) : Except String ClientProtocol :=
  if url.scheme = "http" then Except.ok ClientProtocol.Http
  else if url.scheme = "https" then Except.ok ClientProtocol.Https
  else Except.error ("unsupported schema " ++ url.scheme)

/-! ## base64 (model of the `base64` crate's `general_purpose::STANDARD` engine) -/

/-- ASCII code of the standard-alphabet base64 digit for a sextet value. -/
def b64Char (n : Nat) : Nat :=
  if n < 26 then 65 + n
  else if n < 52 then 97 + (n - 26)
  else if n < 62 then 48 + (n - 52)
  else if n = 62 then 43
  else 47

/-- Sextet value of a standard-alphabet base64 digit (ASCII code), if any. -/
def b64Index (c : Nat) : Option Nat :=
  if 65 ≤ c ∧ c ≤ 90 then some (c - 65)
  else if 97 ≤ c ∧ c ≤ 122 then some (c - 97 + 26)
  else if 48 ≤ c ∧ c ≤ 57 then some (c - 48 + 52)
  else if c = 43 then some 62
  else if c = 47 then some 63
  else none

/-- Standard base64 encoding with `=` (ASCII 61) padding, byte list to ASCII
code list. -/
def b64encode : List Nat → List Nat
  | a :: b :: c :: rest =>
    b64Char (a / 4) :: b64Char (a % 4 * 16 + b / 16) ::
      b64Char (b % 16 * 4 + c / 64) :: b64Char (c % 64) :: b64encode rest
  | [a, b] => [b64Char (a / 4), b64Char (a % 4 * 16 + b / 16), b64Char (b % 16 * 4), 61]
  | [a] => [b64Char (a / 4), b64Char (a % 4 * 16), 61, 61]
  | [] => []

/-- Standard base64 decoding (canonical padding required, trailing bits must be
zero, as in the `STANDARD` engine); `none` models a `DecodeError`. -/
def b64decode : List Nat → Option (List Nat)
  | [] => some []
  | c1 :: c2 :: c3 :: c4 :: rest =>
    if c3 = 61 ∧ c4 = 61 ∧ rest = [] then
      match b64Index c1, b64Index c2 with
      | some s1, some s2 => if s2 % 16 = 0 then some [s1 * 4 + s2 / 16] else none
      | _, _ => none
    else if c4 = 61 ∧ rest = [] then
      match b64Index c1, b64Index c2, b64Index c3 with
      | some s1, some s2, some s3 =>
        if s3 % 4 = 0 then some [s1 * 4 + s2 / 16, s2 % 16 * 16 + s3 / 4] else none
      | _, _, _ => none
    else
      match b64Index c1, b64Index c2, b64Index c3, b64Index c4, b64decode rest with
      | some s1, some s2, some s3, some s4, some r =>
        some ((s1 * 4 + s2 / 16) :: (s2 % 16 * 16 + s3 / 4) :: (s3 % 4 * 64 + s4) :: r)
      | _, _, _, _, _ => none
  | _ => none

/-! ## UTF-8 (model of `String::from_utf8_lossy`) -/

/-- Try to split one well-formed UTF-8 scalar encoding off the front of a byte
list, returning the consumed bytes and the remainder. The accepted ranges are
exactly Rust's strict UTF-8 validation table (no overlong forms, no
surrogates, lead bytes up to `F4`). -/
def utf8Step : List Nat → Option (List Nat × List Nat)
  | [] => none
  | b0 :: r0 =>
    if b0 < 128 then some ([b0], r0)
    else if b0 < 194 then none
    else if b0 < 224 then
      match r0 with
      | b1 :: r1 => if 128 ≤ b1 ∧ b1 < 192 then some ([b0, b1], r1) else none
      | _ => none
    else if b0 < 240 then
      match r0 with
      | b1 :: b2 :: r2 =>
        if ((b0 = 224 ∧ 160 ≤ b1 ∧ b1 < 192) ∨ (b0 = 237 ∧ 128 ≤ b1 ∧ b1 < 160) ∨
            (b0 ≠ 224 ∧ b0 ≠ 237 ∧ 128 ≤ b1 ∧ b1 < 192)) ∧ (128 ≤ b2 ∧ b2 < 192)
        then some ([b0, b1, b2], r2) else none
      | _ => none
    else if b0 < 245 then
      match r0 with
      | b1 :: b2 :: b3 :: r3 =>
        if ((b0 = 240 ∧ 144 ≤ b1 ∧ b1 < 192) ∨ (b0 = 244 ∧ 128 ≤ b1 ∧ b1 < 144) ∨
            (b0 ≠ 240 ∧ b0 ≠ 244 ∧ 128 ≤ b1 ∧ b1 < 192)) ∧ (128 ≤ b2 ∧ b2 < 192) ∧
            (128 ≤ b3 ∧ b3 < 192)
        then some ([b0, b1, b2, b3], r3) else none
      | _ => none
    else none

/-- Fuel-driven worker for `fromUtf8Lossy`; the fuel is an upper bound on the
number of scalar values, any value at least the list length is enough. -/
def fromUtf8LossyAux : Nat → List Nat → List Nat
  | _, [] => []
  | 0, _ :: _ => []
  | fuel + 1, b :: rest =>
    match utf8Step (b :: rest) with
    | some (tok, r) => tok ++ fromUtf8LossyAux fuel r
    | none => 239 :: 191 :: 189 :: fromUtf8LossyAux fuel rest

/-- Model of `String::from_utf8_lossy`, at the level of the UTF-8 bytes of the
resulting string: valid scalar encodings are copied through unchanged, an
invalid byte is replaced by the replacement character bytes `EF BF BD`. Total:
it never fails, whatever the input bytes. -/
def fromUtf8Lossy (l : List Nat) : List Nat :=
  fromUtf8LossyAux l.length l

/-- Fuel-driven worker for `utf8Valid`. -/
def utf8ValidAux : Nat → List Nat → Bool
  | _, [] => true
  | 0, _ :: _ => false
  | fuel + 1, b :: rest =>
    match utf8Step (b :: rest) with
    | some (_, r) => utf8ValidAux fuel r
    | none => false

/-- Whether a byte list is well-formed UTF-8 (Rust's strict validation). -/
def utf8Valid (l : List Nat) : Bool :=
  utf8ValidAux l.length l

/-! ## auth.rs -/

/-- Translation of `Iterator::position` as used by `auth.rs` (`position` over a
list, first index whose element satisfies the predicate). -/
def listPosition {α : Type} (p : α → Bool) : List α → Option Nat
  | [] => none
  | x :: xs => if p x then some 0 else (listPosition p xs).map (· + 1)

/-- Error message of the base64 `DecodeError` propagated by `get_user_pwd`
(the exact display text of the external error is irrelevant; it is a decode
failure, not a lookup failure). -/
def base64Err : String := "base64 decode error"

/-- Error message `anyhow!("auth info format incorrect")` (missing `:`). -/
def authFormatErr : String := "auth info format incorrect"

/-- Error message `anyhow!("url have no login info")` (host not found). -/
def notFoundErr : String := "url have no login info"

/-- Translation of `LoginInfo` (src/auth.rs lines 18-23): a registry host and
the base64 encoding of `username:password`. The stored base64 text is a list
of ASCII codes. -/
structure LoginInfo where
  url : String
  auth : List Nat
deriving DecidableEq

/-- Translation of `LoginInfo::new` (src/auth.rs lines 30-35):
`auth = base64Encode(user ++ ":" ++ pwd)` (58 is the ASCII code of `:`). -/
def LoginInfo.new (url : String) (user pwd : List Nat) : LoginInfo :=
  { url := url, auth := b64encode (user ++ 58 :: pwd) }

/-- Translation of `LoginInfo::get_user_pwd` (src/auth.rs lines 37-48):
base64-decode, find the first `:` byte, `split_at` there, drop the separator
from the password half, convert both halves lossily. -/
def LoginInfo.get_user_pwd (li : LoginInfo) : Except String (List Nat × List Nat) :=
  match b64decode li.auth with
  | none => Except.error base64Err
  | some dec =>
    match listPosition (fun x => x == 58) dec with
    | none => Except.error authFormatErr
    | some idx =>
      Except.ok (fromUtf8Lossy (dec.take idx), fromUtf8Lossy ((dec.drop idx).drop 1))

/-- Translation of `AuthInfo` (src/auth.rs line 53): an ordered list of
`LoginInfo` records. -/
abbrev AuthInfo : Type := List LoginInfo

/-- Translation of `AuthInfo::get_auth_info_by_url` (src/auth.rs lines 78-85):
scan in order, first record whose `url` equals the host wins. -/
def AuthInfo.get_auth_info_by_url : AuthInfo → String → Except String (List Nat × List Nat)
  | [], _ => Except.error notFoundErr
  | i :: rest, url =>
    if i.url == url then i.get_user_pwd else AuthInfo.get_auth_info_by_url rest url

/-- Translation of `AuthInfo::set_login_info` (src/auth.rs lines 87-93): if a
record with the same `url` exists, replace the first such record in place,
otherwise push at the end. -/
def AuthInfo.set_login_info (a : AuthInfo) (login_info : LoginInfo) : AuthInfo :=
  match listPosition (fun x => x.url == login_info.url) a with
  | some idx => a.set idx login_info
  | none => a ++ [login_info]

/-- Translation of `AuthInfo::remove_login_info` (src/auth.rs lines 95-101). -/
def AuthInfo.remove_login_info (a : AuthInfo) (url : String) : Except String AuthInfo :=
  match listPosition (fun x => x.url == url) a with
  | some idx => Except.ok (a.eraseIdx idx)
  | none => Except.error ("auth info of url: " ++ url ++ " not found")

/-- Translation of `get_auth_info_by_url_with_path` (src/auth.rs lines
104-113). The credential file read (`AuthInfo::get`) is passed in as its
result, so the store is a parameter; when the URL userinfo carries a non-empty
username, the store parameter is never touched. -/
def get_auth_info_by_url_with_path (url : Url) (store : Except String AuthInfo) :
    Except String (List Nat × List Nat) :=
  if url.username ≠ [] then Except.ok (url.username, url.password.getD [])
  else
    match store with
    | Except.error e => Except.error e
    | Except.ok auth_info =>
      match url.host with
      | some h => AuthInfo.get_auth_info_by_url auth_info h
      | none => Except.error "panic: unwrap on None"

/-- Translation of `get_registry_auth` (src/auth.rs lines 125-127). -/
def get_registry_auth (user password : List Nat) : RegistryAuth :=
  RegistryAuth.Basic user password

/-- Content of the credential backing file as far as the code distinguishes
it: empty (also the content just after `create(true)` makes the file),
deserializable records, or malformed bytes. -/
inductive CredFile
  | empty
  | records (l : List LoginInfo)
  | malformed
deriving DecidableEq

/-- Translation of `AuthInfo::read_from_file` (src/auth.rs lines 61-69): empty
data gives the empty store, well-formed JSON gives its records, anything else
is the deserialization failure. -/
def read_from_file : CredFile → Except String AuthInfo
  | CredFile.empty => Except.ok []
  | CredFile.records l => Except.ok l
  | CredFile.malformed => Except.error "Failed to deserialize auth config from file"

/-- Translation of `v2_login` (src/auth.rs lines 229-241): decode the freshly
built record, build the client for the URL scheme, and probe a push-intent
authentication against the registry root reference. The registry handshake is
the external `probe` parameter. -/
def v2_login (url : Url) (login_info : LoginInfo)
    (probe : Reference → RegistryAuth → Except String Unit) : Except String Unit :=
  match login_info.get_user_pwd with
  | Except.error e => Except.error e
  | Except.ok (username, password) =>
    match get_client url with
    | Except.error e => Except.error e
    | Except.ok _client =>
      match url.host with
      | some h => probe { registry := h, repository := "/", tag := some "" }
          (RegistryAuth.Basic username password)
      | none => Except.error "panic: unwrap on None"

/-- Translation of `login_registry` (src/auth.rs lines 213-225) together with
the file handling of `AuthInfo::get`/`get_auth_save_file` (lines 56-59 and
129-139): the state of the credential file is threaded explicitly, `none`
meaning the file does not exist. `get_auth_save_file` opens with
`create(true)`, so a missing file becomes an (existing) empty file before
anything is read; the records are written back only after the probe
succeeds. -/
def login_registry (url : Url) (username token : List Nat) (fs : Option CredFile)
    (probe : Reference → RegistryAuth → Except String Unit) :
    Except String Unit × Option CredFile :=
  match url.host with
  | none => (Except.error "url format incorrect", fs)
  | some host =>
    let fs1 : Option CredFile := some (fs.getD CredFile.empty)
    match read_from_file (fs.getD CredFile.empty) with
    | Except.error e => (Except.error e, fs1)
    | Except.ok auth_info =>
      let login_info := LoginInfo.new host username token
      match v2_login url login_info probe with
      | Except.error e => (Except.error e, fs1)
      | Except.ok _ =>
        (Except.ok (), some (CredFile.records (AuthInfo.set_login_info auth_info login_info)))

/-! ## wasm.rs -/

/-- Translation of `parse_img_url` (src/wasm.rs lines 26-38). `Url::parse` and
`str::parse::<Reference>` are external capabilities, passed as `urlParse` and
`refParse`; everything in between (client construction, host extraction,
standard port, canonical `host:port` ++ `path` repository string) is the
library's own logic. -/
def parse_img_url (urlParse : String → Except String Url)
    (refParse : String → Except String Reference) (url : String) :
    Except String (ClientProtocol × Reference × String) :=
  match urlParse url with
  | Except.error e => Except.error e
  | Except.ok img_url =>
    match get_client img_url with
    | Except.error e => Except.error e
    | Except.ok client =>
      match img_url.host with
      | none => Except.error ("invalid url: " ++ url)
      | some host =>
        match default_schema_port img_url.scheme with
        | Except.error e => Except.error e
        | Except.ok port =>
          let repo_url := host ++ ":" ++ toString port ++ img_url.path
          match refParse repo_url with
          | Except.error e => Except.error e
          | Except.ok reference => Except.ok (client, reference, repo_url)

/-- Translation of `push_wasm_to_registry` (src/wasm.rs lines 130-156): build
the single raw-bytes layer with the wasm layer media type and the fixed
config blob with bytes of the two-character text of an empty JSON object, hand
them to the external registry push (`clientPush`), and return the response's
manifest URL. -/
def push_wasm_to_registry
    (clientPush : Reference → List ImageLayer → Config → RegistryAuth →
      Except String PushResponse)
    (auth : RegistryAuth) (reference : Reference) (module : List Nat)
    (_ann : Option (List (String × String))) : Except String String :=
  let layers : List ImageLayer := [{ data := module, media_type := WASM_LAYER_MEDIA_TYPE }]
  let config : Config := { data := [123, 125], media_type := WASM_CONFIG_MEDIA_TYPE }
  match clientPush reference layers config auth with
  | Except.error e => Except.error e
  | Except.ok resp => Except.ok resp.manifest_url

/-- Translation of `pull_wasm_from_registry` (src/wasm.rs lines 93-116): ask
the external registry pull (`clientPull`) for layers of the wasm layer media
type; take the first returned layer's raw bytes, or fail naming
`registry/repository:tag` with tag defaulting to "latest". -/
def pull_wasm_from_registry
    (clientPull : Reference → RegistryAuth → List String → Except String ImageData)
    (auth : RegistryAuth) (reference : Reference) : Except String (List Nat) :=
  match clientPull reference auth [WASM_LAYER_MEDIA_TYPE] with
  | Except.error e => Except.error e
  | Except.ok img_data =>
    match img_data.layers with
    | layer :: _ => Except.ok layer.data
    | [] =>
      Except.error ("no data found in url: " ++ reference.registry ++ "/" ++
        reference.repository ++ ":" ++ reference.tag.getD "latest")

/-- External collaborators of `wasm_push`: the filesystem answers about the
input path, the wasm validator, URL/reference parsing, and the registry
client's push endpoint. -/
structure PushEnv where
  file_is_file : Bool
  readResult : Except String (List Nat)
  validate : List Nat → Except String Unit
  urlParse : String → Except String Url
  refParse : String → Except String Reference
  clientPush : Reference → List ImageLayer → Config → RegistryAuth →
    Except String PushResponse

/-- Translation of `wasm_push` (src/wasm.rs lines 41-63), with an explicit
event trace. Order as in the source: regular-file check, read, wasm
validation, client/reference derivation, then the registry push; the manifest
URL returned by `push_wasm_to_registry` is dropped and `Ok(())` is returned. -/
def wasm_push (env : PushEnv) (file _img_url : String) (username password : List Nat) :
    Except String Unit × List Event :=
  if env.file_is_file = false then
    (Except.error (file ++ " is not a regular file"), [Event.checkFile])
  else
    match env.readResult with
    | Except.error e => (Except.error e, [Event.checkFile, Event.readFile])
    | Except.ok module =>
      match env.validate module with
      | Except.error e =>
        (Except.error e, [Event.checkFile, Event.readFile, Event.validateWasm])
      | Except.ok _ =>
        match parse_img_url env.urlParse env.refParse _img_url with
        | Except.error e =>
          (Except.error e,
            [Event.checkFile, Event.readFile, Event.validateWasm, Event.deriveRef])
        | Except.ok (_client, reference, _repo) =>
          let auth := get_registry_auth username password
          match push_wasm_to_registry env.clientPush auth reference module none with
          | Except.error e =>
            (Except.error e,
              [Event.checkFile, Event.readFile, Event.validateWasm, Event.deriveRef,
                Event.netPush])
          | Except.ok _manifest_url =>
            (Except.ok (),
              [Event.checkFile, Event.readFile, Event.validateWasm, Event.deriveRef,
                Event.netPush])

/-- External collaborators of `wasm_pull`. -/
structure PullEnv where
  urlParse : String → Except String Url
  refParse : String → Except String Reference
  clientPull : Reference → RegistryAuth → List String → Except String ImageData
  validate : List Nat → Except String Unit

/-- Translation of `wasm_pull` (src/wasm.rs lines 66-80), with an explicit
event trace: derive client/reference, pull, then validate the pulled bytes. -/
def wasm_pull (env : PullEnv) (img : String) (username password : List Nat) :
    Except String (List Nat) × List Event :=
  match parse_img_url env.urlParse env.refParse img with
  | Except.error e => (Except.error e, [Event.deriveRef])
  | Except.ok (_client, reference, _repo_url) =>
    let auth := get_registry_auth username password
    match pull_wasm_from_registry env.clientPull auth reference with
    | Except.error e => (Except.error e, [Event.deriveRef, Event.netPull])
    | Except.ok img_content =>
      match env.validate img_content with
      | Except.error e =>
        (Except.error e, [Event.deriveRef, Event.netPull, Event.validateWasm])
      | Except.ok _ =>
        (Except.ok img_content, [Event.deriveRef, Event.netPull, Event.validateWasm])

/-- Translation of `PushArgs` (src/wasm.rs lines 119-128). -/
structure PushArgs where
  file : String
  image_url : String
  username : List Nat
  password : List Nat

/-- Translation of `PullArgs` (src/wasm.rs lines 82-91). -/
structure PullArgs where
  write_file : String
  image_url : String
  username : List Nat
  password : List Nat

/-! ## lib.rs entry points -/

/-- Translation of `push` (src/lib.rs lines 48-51): run `wasm_push`, map
success to `()`. -/
def push (env : PushEnv) (args : PushArgs) : Except String Unit × List Event :=
  match wasm_push env args.file args.image_url args.username args.password with
  | (Except.error e, tr) => (Except.error e, tr)
  | (Except.ok _, tr) => (Except.ok (), tr)

/-- Translation of `pull` (src/lib.rs lines 54-67), threading the state of the
output file (`none` when `write_file` does not exist). The file is opened
(existing regular file) or created (otherwise) first; then `wasm_pull` runs;
on success the pulled bytes are copied into the file from offset zero (the
open does not truncate, so a longer pre-existing tail survives). -/
def pull (env : PullEnv) (fs : Option (List Nat)) (args : PullArgs) :
    Except String Unit × Option (List Nat) × List Event :=
  let opened : List Nat := fs.getD []
  match wasm_pull env args.image_url args.username args.password with
  | (Except.error e, tr) => (Except.error e, some opened, Event.openOutFile :: tr)
  | (Except.ok data, tr) =>
    (Except.ok (), some (data ++ opened.drop data.length),
      Event.openOutFile :: (tr ++ [Event.writeOutFile]))

/-! ## Lemmas: base64 round-trip -/

theorem b64Char_ne_61 (n : Nat) : b64Char n ≠ 61 := by
  unfold b64Char
  split_ifs <;> omega

theorem b64Index_b64Char : ∀ n < 64, b64Index (b64Char n) = some n := by decide

theorem b64decode_encode :
    ∀ (bs : List Nat), (∀ b ∈ bs, b < 256) → b64decode (b64encode bs) = some bs
  | [], _ => rfl
  | [a], h => by
    have ha : a < 256 := h a (by simp)
    simp only [b64encode, b64decode, and_true, and_self, if_true]
    rw [b64Index_b64Char (a / 4) (by omega), b64Index_b64Char (a % 4 * 16) (by omega)]
    simp only []
    rw [if_pos (by omega)]
    refine congrArg some ?_
    refine congrArg (fun x => [x]) ?_
    omega
  | [a, b], h => by
    have ha : a < 256 := h a (by simp)
    have hb : b < 256 := h b (by simp)
    have h3 : b64Char (b % 16 * 4) ≠ 61 := b64Char_ne_61 _
    simp only [b64encode, b64decode]
    rw [if_neg (by simp [h3]), if_pos (by simp)]
    rw [b64Index_b64Char (a / 4) (by omega),
      b64Index_b64Char (a % 4 * 16 + b / 16) (by omega),
      b64Index_b64Char (b % 16 * 4) (by omega)]
    simp only []
    rw [if_pos (by omega)]
    refine congrArg some ?_
    have e1 : a / 4 * 4 + (a % 4 * 16 + b / 16) / 16 = a := by omega
    have e2 : (a % 4 * 16 + b / 16) % 16 * 16 + b % 16 * 4 / 4 = b := by omega
    rw [e1, e2]
  | a :: b :: c :: d :: rest, h => by
    have ha : a < 256 := h a (by simp)
    have hb : b < 256 := h b (by simp)
    have hc : c < 256 := h c (by simp)
    have h3 : b64Char (b % 16 * 4 + c / 64) ≠ 61 := b64Char_ne_61 _
    have h4 : b64Char (c % 64) ≠ 61 := b64Char_ne_61 _
    have ih := b64decode_encode (d :: rest) (fun x hx => h x (by simp at hx ⊢; tauto))
    simp only [b64encode, b64decode]
    rw [if_neg (by simp [h3]), if_neg (by simp [h4])]
    rw [b64Index_b64Char (a / 4) (by omega),
      b64Index_b64Char (a % 4 * 16 + b / 16) (by omega),
      b64Index_b64Char (b % 16 * 4 + c / 64) (by omega),
      b64Index_b64Char (c % 64) (by omega)]
    rw [ih]
    simp only []
    refine congrArg some ?_
    have e1 : a / 4 * 4 + (a % 4 * 16 + b / 16) / 16 = a := by omega
    have e2 : (a % 4 * 16 + b / 16) % 16 * 16 + (b % 16 * 4 + c / 64) / 4 = b := by omega
    have e3 : (b % 16 * 4 + c / 64) % 4 * 64 + c % 64 = c := by omega
    rw [e1, e2, e3]
  | [a, b, c], h => by
    have ha : a < 256 := h a (by simp)
    have hb : b < 256 := h b (by simp)
    have hc : c < 256 := h c (by simp)
    have h3 : b64Char (b % 16 * 4 + c / 64) ≠ 61 := b64Char_ne_61 _
    have h4 : b64Char (c % 64) ≠ 61 := b64Char_ne_61 _
    simp only [b64encode, b64decode]
    rw [if_neg (by simp [h3]), if_neg (by simp [h4])]
    rw [b64Index_b64Char (a / 4) (by omega),
      b64Index_b64Char (a % 4 * 16 + b / 16) (by omega),
      b64Index_b64Char (b % 16 * 4 + c / 64) (by omega),
      b64Index_b64Char (c % 64) (by omega)]
    simp only []
    refine congrArg some ?_
    have e1 : a / 4 * 4 + (a % 4 * 16 + b / 16) / 16 = a := by omega
    have e2 : (a % 4 * 16 + b / 16) % 16 * 16 + (b % 16 * 4 + c / 64) / 4 = b := by omega
    have e3 : (b % 16 * 4 + c / 64) % 4 * 64 + c % 64 = c := by omega
    rw [e1, e2, e3]

/-! ## Lemmas: lossy UTF-8 decoding is the identity on valid input -/

theorem utf8Step_sound (l tok r : List Nat) (h : utf8Step l = some (tok, r)) :
    tok ++ r = l ∧ tok ≠ [] ∧ ∀ b ∈ tok, b < 256 := by
  cases l with
  | nil => simp [utf8Step] at h
  | cons b0 r0 =>
    simp only [utf8Step] at h
    repeat' split at h
    all_goals simp at h
    all_goals obtain ⟨h1, h2⟩ := h
    all_goals subst h1
    all_goals subst h2
    all_goals refine ⟨rfl, by simp, ?_⟩
    all_goals intro x hx
    all_goals simp at hx
    all_goals omega

theorem utf8Step_shorter (l tok r : List Nat) (h : utf8Step l = some (tok, r)) :
    r.length < l.length := by
  obtain ⟨happ, hne, _⟩ := utf8Step_sound l tok r h
  have := congrArg List.length happ
  simp [List.length_append] at this
  cases tok with
  | nil => exact absurd rfl hne
  | cons a t => simp at this; omega

theorem fromUtf8LossyAux_valid :
    ∀ (fuel : Nat) (l : List Nat), l.length ≤ fuel → utf8ValidAux fuel l = true →
      fromUtf8LossyAux fuel l = l := by
  intro fuel
  induction fuel with
  | zero =>
    intro l hl _
    have : l = [] := List.eq_nil_of_length_eq_zero (Nat.le_zero.1 hl)
    subst this; rfl
  | succ f ih =>
    intro l hl hv
    cases l with
    | nil => rfl
    | cons b rest =>
      rw [utf8ValidAux] at hv
      rw [fromUtf8LossyAux]
      cases hs : utf8Step (b :: rest) with
      | none => rw [hs] at hv; simp at hv
      | some p =>
        obtain ⟨tok, r⟩ := p
        rw [hs] at hv
        simp only [] at hv ⊢
        obtain ⟨happ, _, _⟩ := utf8Step_sound _ _ _ hs
        have hr : r.length ≤ f := by
          have := utf8Step_shorter _ _ _ hs
          simp at this hl ⊢
          omega
        rw [ih r hr hv]
        exact happ

theorem fromUtf8Lossy_valid (l : List Nat) (h : utf8Valid l = true) :
    fromUtf8Lossy l = l :=
  fromUtf8LossyAux_valid l.length l (Nat.le_refl _) h

theorem utf8ValidAux_lt :
    ∀ (fuel : Nat) (l : List Nat), utf8ValidAux fuel l = true → ∀ b ∈ l, b < 256 := by
  intro fuel
  induction fuel with
  | zero =>
    intro l hv b hb
    cases l with
    | nil => simp at hb
    | cons a t => rw [utf8ValidAux] at hv; simp at hv
  | succ f ih =>
    intro l hv b hb
    cases l with
    | nil => simp at hb
    | cons a t =>
      rw [utf8ValidAux] at hv
      cases hs : utf8Step (a :: t) with
      | none => rw [hs] at hv; simp at hv
      | some p =>
        obtain ⟨tok, r⟩ := p
        rw [hs] at hv
        simp only [] at hv
        obtain ⟨happ, _, htok⟩ := utf8Step_sound _ _ _ hs
        rw [← happ] at hb
        rcases List.mem_append.1 hb with hm | hm
        · exact htok b hm
        · exact ih r hv b hm

theorem utf8Valid_lt (l : List Nat) (h : utf8Valid l = true) : ∀ b ∈ l, b < 256 :=
  utf8ValidAux_lt l.length l h

/-! ## Lemmas: credential store operations -/

theorem listPosition_append_colon (u p : List Nat) (h : (58 : Nat) ∉ u) :
    listPosition (fun x => x == 58) (u ++ 58 :: p) = some u.length := by
  induction u with
  | nil => simp [listPosition]
  | cons a u ih =>
    have ha : (a == 58) = false := by
      simp only [beq_eq_false_iff_ne]
      exact fun e => h (by simp [e])
    have ih2 := ih (fun hm => h (List.mem_cons_of_mem _ hm))
    simp [listPosition, ha, ih2]

theorem listPosition_first {α : Type} (p : α → Bool) :
    ∀ (l : List α) (i : Nat), listPosition p l = some i →
      i < l.length ∧ (∀ x ∈ l.take i, p x = false) ∧ (∀ x, l.get? i = some x → p x = true) := by
  intro l
  induction l with
  | nil => intro i h; simp [listPosition] at h
  | cons a t ih =>
    intro i h
    rw [listPosition] at h
    by_cases hp : p a
    · rw [if_pos hp] at h
      simp at h
      subst h
      refine ⟨by simp, by simp, ?_⟩
      intro x hx
      simp at hx
      subst hx
      exact hp
    · rw [if_neg hp] at h
      cases ht : listPosition p t with
      | none => rw [ht] at h; simp at h
      | some j =>
        rw [ht] at h
        simp at h
        subst h
        obtain ⟨hj, htake, hget⟩ := ih j ht
        refine ⟨by simp; omega, ?_, ?_⟩
        · intro x hx
          simp [List.take_cons] at hx
          rcases hx with rfl | hx
          · simpa using hp
          · exact htake x hx
        · intro x hx
          rw [List.get?_cons_succ] at hx
          exact hget x hx

theorem set_login_info_nil (li : LoginInfo) : AuthInfo.set_login_info [] li = [li] := rfl

theorem set_login_info_cons (x : LoginInfo) (xs : AuthInfo) (li : LoginInfo) :
    AuthInfo.set_login_info (x :: xs) li =
      if x.url == li.url then li :: xs else x :: AuthInfo.set_login_info xs li := by
  unfold AuthInfo.set_login_info
  rw [listPosition]
  cases hx : (x.url == li.url) with
  | true => simp [List.set]
  | false =>
    simp only [Bool.false_eq_true, if_false]
    cases hp : listPosition (fun y => y.url == li.url) xs with
    | none => simp
    | some i => simp [List.set]

theorem get_after_set (a : AuthInfo) (li : LoginInfo) :
    AuthInfo.get_auth_info_by_url (AuthInfo.set_login_info a li) li.url =
      li.get_user_pwd := by
  induction a with
  | nil =>
    rw [set_login_info_nil]
    simp [AuthInfo.get_auth_info_by_url]
  | cons x xs ih =>
    rw [set_login_info_cons]
    cases hx : (x.url == li.url) with
    | true => simp [AuthInfo.get_auth_info_by_url]
    | false => simp [AuthInfo.get_auth_info_by_url, hx, ih]

theorem get_user_pwd_new (host : String) (user pwd : List Nat)
    (hu : utf8Valid user = true) (hp : utf8Valid pwd = true) (hc : (58 : Nat) ∉ user) :
    (LoginInfo.new host user pwd).get_user_pwd = Except.ok (user, pwd) := by
  have hbytes : ∀ b ∈ user ++ 58 :: pwd, b < 256 := by
    intro b hb
    rcases List.mem_append.1 hb with hm | hm
    · exact utf8Valid_lt user hu b hm
    · rcases List.mem_cons.1 hm with rfl | hm
      · omega
      · exact utf8Valid_lt pwd hp b hm
  unfold LoginInfo.new LoginInfo.get_user_pwd
  simp only []
  rw [b64decode_encode _ hbytes]
  show (match listPosition (fun x => x == 58) (user ++ 58 :: pwd) with
    | none => Except.error authFormatErr
    | some idx =>
      Except.ok (fromUtf8Lossy ((user ++ 58 :: pwd).take idx),
        fromUtf8Lossy (((user ++ 58 :: pwd).drop idx).drop 1))) = Except.ok (user, pwd)
  rw [listPosition_append_colon user pwd hc]
  show Except.ok (fromUtf8Lossy ((user ++ 58 :: pwd).take user.length),
      fromUtf8Lossy (((user ++ 58 :: pwd).drop user.length).drop 1)) = Except.ok (user, pwd)
  rw [List.take_left, List.drop_left]
  simp only [List.drop_succ_cons, List.drop_zero]
  rw [fromUtf8Lossy_valid user hu, fromUtf8Lossy_valid pwd hp]

theorem mem_set_login_info_self (a : AuthInfo) (li : LoginInfo) :
    li ∈ AuthInfo.set_login_info a li := by
  induction a with
  | nil => rw [set_login_info_nil]; simp
  | cons x xs ih =>
    rw [set_login_info_cons]
    cases hx : (x.url == li.url) with
    | true => simp
    | false => simp [ih]

theorem set_login_info_length_of_mem (a : AuthInfo) (li : LoginInfo)
    (h : ∃ x ∈ a, x.url = li.url) :
    (AuthInfo.set_login_info a li).length = a.length := by
  induction a with
  | nil => simp at h
  | cons x xs ih =>
    rw [set_login_info_cons]
    cases hx : (x.url == li.url) with
    | true => simp
    | false =>
      have hxne : x.url ≠ li.url := by simpa using hx
      obtain ⟨y, hy, hyu⟩ := h
      rcases List.mem_cons.1 hy with rfl | hy
      · exact absurd hyu hxne
      · simp [ih ⟨y, hy, hyu⟩]

theorem set_login_info_filter (a : AuthInfo) (li : LoginInfo) :
    (AuthInfo.set_login_info a li).filter (fun x => !(x.url == li.url)) =
      a.filter (fun x => !(x.url == li.url)) := by
  induction a with
  | nil => rw [set_login_info_nil]; simp
  | cons x xs ih =>
    rw [set_login_info_cons]
    cases hx : (x.url == li.url) with
    | true =>
      simp only [if_true]
      rw [List.filter_cons, List.filter_cons]
      simp [hx]
    | false =>
      simp only [Bool.false_eq_true, if_false]
      rw [List.filter_cons, List.filter_cons]
      simp [hx, ih]

theorem set_login_info_urls_sub (a : AuthInfo) (li : LoginInfo) (y : String)
    (h : y ∈ (AuthInfo.set_login_info a li).map LoginInfo.url) :
    y = li.url ∨ y ∈ a.map LoginInfo.url := by
  induction a with
  | nil =>
    rw [set_login_info_nil] at h
    simp at h
    exact Or.inl h
  | cons x xs ih =>
    rw [set_login_info_cons] at h
    by_cases hx : (x.url == li.url) = true
    · rw [if_pos hx] at h
      rw [List.map_cons, List.mem_cons] at h
      rcases h with h | h
      · exact Or.inl h
      · exact Or.inr (by rw [List.map_cons, List.mem_cons]; exact Or.inr h)
    · rw [if_neg hx] at h
      rw [List.map_cons, List.mem_cons] at h
      rcases h with h | h
      · exact Or.inr (by rw [List.map_cons, List.mem_cons]; exact Or.inl h)
      · rcases ih h with h2 | h2
        · exact Or.inl h2
        · exact Or.inr (by rw [List.map_cons, List.mem_cons]; exact Or.inr h2)

theorem set_login_info_nodup (a : AuthInfo) (li : LoginInfo)
    (h : (a.map LoginInfo.url).Nodup) :
    ((AuthInfo.set_login_info a li).map LoginInfo.url).Nodup := by
  induction a with
  | nil => rw [set_login_info_nil]; simp
  | cons x xs ih =>
    rw [set_login_info_cons]
    simp only [List.map_cons, List.nodup_cons] at h
    obtain ⟨hnx, hnxs⟩ := h
    cases hx : (x.url == li.url) with
    | true =>
      have hxe : x.url = li.url := by simpa using hx
      simp only [if_true, List.map_cons, List.nodup_cons]
      exact ⟨by rw [← hxe]; exact hnx, hnxs⟩
    | false =>
      have hxne : x.url ≠ li.url := by simpa using hx
      simp only [Bool.false_eq_true, if_false, List.map_cons, List.nodup_cons]
      refine ⟨?_, ih hnxs⟩
      intro hmem
      rcases set_login_info_urls_sub xs li x.url hmem with h | h
      · exact hxne h
      · exact hnx h

theorem set_login_info_append (a : AuthInfo) (li : LoginInfo)
    (h : ∀ x ∈ a, x.url ≠ li.url) :
    AuthInfo.set_login_info a li = a ++ [li] := by
  induction a with
  | nil => rw [set_login_info_nil]; rfl
  | cons x xs ih =>
    rw [set_login_info_cons]
    have hx : (x.url == li.url) = false := by
      simp only [beq_eq_false_iff_ne]
      exact h x (by simp)
    rw [hx]
    simp only [Bool.false_eq_true, if_false, List.cons_append, List.cons.injEq, true_and]
    exact ih (fun y hy => h y (List.mem_cons_of_mem _ hy))

/-! ## Claim theorems -/

/-- C4: for every host, username and password (valid UTF-8, username without
a colon byte), resolving the host right after upserting the record built by
`LoginInfo::new` from them — in any starting store — returns exactly that
username and password: the base64 encode / split-at-first-colon decode
round-trip is lossless. -/
theorem c4_resolve_after_upsert_roundtrip (host : String) (user pwd : List Nat)
    (a : AuthInfo) (hu : utf8Valid user = true) (hp : utf8Valid pwd = true)
    (hc : (58 : Nat) ∉ user) :
    AuthInfo.get_auth_info_by_url
      (AuthInfo.set_login_info a (LoginInfo.new host user pwd)) host =
      Except.ok (user, pwd) := by
  have h := get_after_set a (LoginInfo.new host user pwd)
  rw [show (LoginInfo.new host user pwd).url = host from rfl] at h
  rw [h]
  exact get_user_pwd_new host user pwd hu hp hc

/-- Witness for C4 at a concrete store, host and credentials. -/
theorem c4_resolve_after_upsert_roundtrip_witness :
    utf8Valid [117, 115] = true ∧ utf8Valid [112, 58, 33] = true ∧
    (58 : Nat) ∉ [117, 115] ∧
    AuthInfo.get_auth_info_by_url
      (AuthInfo.set_login_info [LoginInfo.new "other.io" [97] [98]]
        (LoginInfo.new "example.com" [117, 115] [112, 58, 33]))
      "example.com" = Except.ok ([117, 115], [112, 58, 33]) :=
  ⟨by decide, by decide, by decide,
    c4_resolve_after_upsert_roundtrip "example.com" [117, 115] [112, 58, 33]
      [LoginInfo.new "other.io" [97] [98]] (by decide) (by decide) (by decide)⟩

/-- C9: upserting a record whose host is already present replaces in place
(store size unchanged, size invariant under repeated upserts of the same
host, records of all other hosts preserved in order), the at-most-one-record-
per-host invariant is preserved, and upserting a new host appends. -/
theorem c9_upsert_invariants :
    (∀ (a : AuthInfo) (li : LoginInfo), (∃ x ∈ a, x.url = li.url) →
        (AuthInfo.set_login_info a li).length = a.length) ∧
    (∀ (a : AuthInfo) (li li2 : LoginInfo), li2.url = li.url →
        (AuthInfo.set_login_info (AuthInfo.set_login_info a li) li2).length =
          (AuthInfo.set_login_info a li).length) ∧
    (∀ (a : AuthInfo) (li : LoginInfo),
        (AuthInfo.set_login_info a li).filter (fun x => !(x.url == li.url)) =
          a.filter (fun x => !(x.url == li.url))) ∧
    (∀ (a : AuthInfo) (li : LoginInfo), (a.map LoginInfo.url).Nodup →
        ((AuthInfo.set_login_info a li).map LoginInfo.url).Nodup) ∧
    (∀ (a : AuthInfo) (li : LoginInfo), (∀ x ∈ a, x.url ≠ li.url) →
        AuthInfo.set_login_info a li = a ++ [li]) := by
  refine ⟨set_login_info_length_of_mem, ?_, set_login_info_filter,
    set_login_info_nodup, set_login_info_append⟩
  intro a li li2 hurl
  exact set_login_info_length_of_mem _ li2
    ⟨li, mem_set_login_info_self a li, hurl.symm⟩

/-- Witness for C9 at a concrete two-record store. -/
theorem c9_upsert_invariants_witness :
    (∃ x ∈ [LoginInfo.new "a" [1] [2], LoginInfo.new "b" [3] [4]],
        x.url = (LoginInfo.new "b" [5] [6]).url) ∧
    (AuthInfo.set_login_info [LoginInfo.new "a" [1] [2], LoginInfo.new "b" [3] [4]]
        (LoginInfo.new "b" [5] [6])).length =
      [LoginInfo.new "a" [1] [2], LoginInfo.new "b" [3] [4]].length :=
  ⟨⟨LoginInfo.new "b" [3] [4], by decide, rfl⟩,
    c9_upsert_invariants.1 [LoginInfo.new "a" [1] [2], LoginInfo.new "b" [3] [4]]
      (LoginInfo.new "b" [5] [6]) ⟨LoginInfo.new "b" [3] [4], by decide, rfl⟩⟩

theorem get_auth_info_not_found (a : AuthInfo) (url : String)
    (h : ∀ x ∈ a, x.url ≠ url) :
    AuthInfo.get_auth_info_by_url a url = Except.error notFoundErr := by
  induction a with
  | nil => rfl
  | cons x xs ih =>
    have hx : (x.url == url) = false := by
      simp only [beq_eq_false_iff_ne]
      exact h x (by simp)
    rw [AuthInfo.get_auth_info_by_url, if_neg (by simp [hx])]
    exact ih (fun y hy => h y (List.mem_cons_of_mem _ hy))

/-- C5: a URL carrying a non-empty embedded username resolves to that username
and the URL password (empty when absent) without consulting the store (the
result is identical for any two stores, even one holding a different record
for the host); only when the URL username is empty is the store consulted,
keyed by the URL's host. -/
theorem c5_url_userinfo_bypasses_store :
    (∀ (url : Url) (s1 s2 : Except String AuthInfo), url.username ≠ [] →
        get_auth_info_by_url_with_path url s1 = get_auth_info_by_url_with_path url s2) ∧
    (∀ (url : Url) (s : Except String AuthInfo), url.username ≠ [] →
        get_auth_info_by_url_with_path url s =
          Except.ok (url.username, url.password.getD [])) ∧
    (∀ (url : Url) (a : AuthInfo) (h : String), url.username = [] → url.host = some h →
        get_auth_info_by_url_with_path url (Except.ok a) =
          AuthInfo.get_auth_info_by_url a h) := by
  refine ⟨?_, ?_, ?_⟩
  · intro url s1 s2 hu
    unfold get_auth_info_by_url_with_path
    rw [if_pos hu, if_pos hu]
  · intro url s hu
    unfold get_auth_info_by_url_with_path
    rw [if_pos hu]
  · intro url a h hu hh
    simp only [get_auth_info_by_url_with_path, hu, hh, ne_eq, not_true_eq_false,
      if_false]

/-- Witness for C5 at a concrete URL with embedded credentials and two
disagreeing stores. -/
theorem c5_url_userinfo_bypasses_store_witness :
    (Url.mk "http" [120] (some [121]) (some "h") "/p").username ≠ [] ∧
    get_auth_info_by_url_with_path (Url.mk "http" [120] (some [121]) (some "h") "/p")
        (Except.ok [LoginInfo.new "h" [1] [2]]) =
      get_auth_info_by_url_with_path (Url.mk "http" [120] (some [121]) (some "h") "/p")
        (Except.ok [LoginInfo.new "h" [9] [9]]) ∧
    get_auth_info_by_url_with_path (Url.mk "http" [120] (some [121]) (some "h") "/p")
        (Except.ok [LoginInfo.new "h" [1] [2]]) = Except.ok ([120], [121]) :=
  ⟨by decide,
    c5_url_userinfo_bypasses_store.1 _ _ _ (by decide),
    c5_url_userinfo_bypasses_store.2.1 _ _ (by decide)⟩

/-- C7: credential decoding base64-decodes the stored text, splits at the
first colon byte into `take idx` and `drop (idx+1)`, converts both halves
with lossy UTF-8 replacement (so it succeeds with no validity assumption on
the decoded bytes); it fails exactly on malformed base64 or a missing colon,
with error values distinct from the host-not-found error of the store
lookup. -/
theorem c7_decode_characterization :
    (∀ (li : LoginInfo) (dec : List Nat) (i : Nat),
        b64decode li.auth = some dec → listPosition (fun x => x == 58) dec = some i →
        li.get_user_pwd =
          Except.ok (fromUtf8Lossy (dec.take i), fromUtf8Lossy (dec.drop (i + 1)))) ∧
    (∀ (dec : List Nat) (i : Nat), listPosition (fun x => x == 58) dec = some i →
        (∀ x ∈ dec.take i, x ≠ 58) ∧ (∀ x, dec.get? i = some x → x = 58)) ∧
    (∀ (li : LoginInfo) (dec : List Nat),
        b64decode li.auth = some dec → listPosition (fun x => x == 58) dec = none →
        li.get_user_pwd = Except.error authFormatErr) ∧
    (∀ (li : LoginInfo), b64decode li.auth = none →
        li.get_user_pwd = Except.error base64Err) ∧
    (authFormatErr ≠ notFoundErr ∧ base64Err ≠ notFoundErr) ∧
    (∀ (a : AuthInfo) (url : String), (∀ x ∈ a, x.url ≠ url) →
        AuthInfo.get_auth_info_by_url a url = Except.error notFoundErr) := by
  refine ⟨?_, ?_, ?_, ?_, ⟨by decide, by decide⟩, get_auth_info_not_found⟩
  · intro li dec i h1 h2
    simp only [LoginInfo.get_user_pwd, h1, h2]
    rw [List.drop_drop]
  · intro dec i h
    obtain ⟨_, htake, hget⟩ := listPosition_first (fun x => x == 58) dec i h
    refine ⟨?_, ?_⟩
    · intro x hx
      have := htake x hx
      simpa using this
    · intro x hx
      have := hget x hx
      simpa using this
  · intro li dec h1 h2
    simp only [LoginInfo.get_user_pwd, h1, h2]
  · intro li h1
    simp only [LoginInfo.get_user_pwd, h1]

/-- Witness for C7 at a concrete record whose auth decodes to `117 58 112`. -/
theorem c7_decode_characterization_witness :
    b64decode (LoginInfo.new "h" [117] [112]).auth = some [117, 58, 112] ∧
    listPosition (fun x => x == 58) [117, 58, 112] = some 1 ∧
    (LoginInfo.new "h" [117] [112]).get_user_pwd =
      Except.ok (fromUtf8Lossy ([117, 58, 112].take 1),
        fromUtf8Lossy ([117, 58, 112].drop 2)) :=
  ⟨by decide, by decide,
    c7_decode_characterization.1 (LoginInfo.new "h" [117] [112]) [117, 58, 112] 1
      (by decide) (by decide)⟩

/-- C6: a registry pull answering with zero layers makes
`pull_wasm_from_registry` fail with the error naming
`registry/repository:tag`, the tag defaulting to "latest" when the reference
carries none; with at least one layer the first layer's raw bytes are
returned. -/
theorem c6_pull_empty_artifact :
    (∀ (cp : Reference → RegistryAuth → List String → Except String ImageData)
        (auth : RegistryAuth) (reference : Reference),
        cp reference auth [WASM_LAYER_MEDIA_TYPE] = Except.ok (ImageData.mk []) →
        pull_wasm_from_registry cp auth reference =
          Except.error ("no data found in url: " ++ reference.registry ++ "/" ++
            reference.repository ++ ":" ++ reference.tag.getD "latest")) ∧
    (∀ cp auth (reference : Reference), reference.tag = none →
        cp reference auth [WASM_LAYER_MEDIA_TYPE] = Except.ok (ImageData.mk []) →
        pull_wasm_from_registry cp auth reference =
          Except.error ("no data found in url: " ++ reference.registry ++ "/" ++
            reference.repository ++ ":" ++ "latest")) ∧
    (∀ cp auth (reference : Reference) (layer : ImageLayer) (rest : List ImageLayer),
        cp reference auth [WASM_LAYER_MEDIA_TYPE] = Except.ok (ImageData.mk (layer :: rest)) →
        pull_wasm_from_registry cp auth reference = Except.ok layer.data) := by
  refine ⟨?_, ?_, ?_⟩
  · intro cp auth reference h
    simp only [pull_wasm_from_registry, h]
  · intro cp auth reference htag h
    simp only [pull_wasm_from_registry, h, htag]
    rfl
  · intro cp auth reference layer rest h
    simp only [pull_wasm_from_registry, h]

/-- Witness for C6 at a concrete reference without a tag and an empty
response. -/
theorem c6_pull_empty_artifact_witness :
    (Reference.mk "reg:80" "repo" none).tag = none ∧
    pull_wasm_from_registry (fun _ _ _ => Except.ok (ImageData.mk []))
        (RegistryAuth.Basic [1] [2]) (Reference.mk "reg:80" "repo" none) =
      Except.error ("no data found in url: " ++ "reg:80" ++ "/" ++ "repo" ++ ":" ++ "latest") :=
  ⟨rfl,
    c6_pull_empty_artifact.2.1 (fun _ _ _ => Except.ok (ImageData.mk []))
      (RegistryAuth.Basic [1] [2]) (Reference.mk "reg:80" "repo" none) rfl rfl⟩

/-- C8: deriving the repository reference selects unencrypted transport for
scheme "http" and encrypted for "https", uses the scheme's standard port (80
or 443), builds the canonical repository string exactly as host, colon, port,
then the URL path, and fails on any other scheme (both the client builder and
the port helper reject it). -/
theorem c8_reference_derivation :
    (default_schema_port "http" = Except.ok 80 ∧
      default_schema_port "https" = Except.ok 443) ∧
    (∀ (up : String → Except String Url) (rp : String → Except String Reference)
        (s : String) (u : Url) (h : String) (r : Reference),
        up s = Except.ok u → u.scheme = "http" → u.host = some h →
        rp (h ++ ":" ++ toString (80 : Nat) ++ u.path) = Except.ok r →
        parse_img_url up rp s =
          Except.ok (ClientProtocol.Http, r, h ++ ":" ++ toString (80 : Nat) ++ u.path)) ∧
    (∀ (up : String → Except String Url) (rp : String → Except String Reference)
        (s : String) (u : Url) (h : String) (r : Reference),
        up s = Except.ok u → u.scheme = "https" → u.host = some h →
        rp (h ++ ":" ++ toString (443 : Nat) ++ u.path) = Except.ok r →
        parse_img_url up rp s =
          Except.ok (ClientProtocol.Https, r, h ++ ":" ++ toString (443 : Nat) ++ u.path)) ∧
    (∀ (up : String → Except String Url) (rp : String → Except String Reference)
        (s : String) (u : Url),
        up s = Except.ok u → u.scheme ≠ "http" → u.scheme ≠ "https" →
        parse_img_url up rp s = Except.error ("unsupported schema " ++ u.scheme) ∧
        default_schema_port u.scheme =
          Except.error ("unknown schema " ++ u.scheme)) := by
  refine ⟨⟨rfl, rfl⟩, ?_, ?_, ?_⟩
  · intro up rp s u h r hup hscheme hhost hrp
    have hc : get_client u = Except.ok ClientProtocol.Http := by
      unfold get_client
      rw [if_pos hscheme]
    have hport : default_schema_port u.scheme = Except.ok 80 := by
      unfold default_schema_port
      rw [if_pos hscheme]
    simp only [parse_img_url, hup, hc, hhost, hport, hrp]
  · intro up rp s u h r hup hscheme hhost hrp
    have hc : get_client u = Except.ok ClientProtocol.Https := by
      unfold get_client
      rw [if_neg (by simp [hscheme]), if_pos hscheme]
    have hport : default_schema_port u.scheme = Except.ok 443 := by
      unfold default_schema_port
      rw [if_neg (by simp [hscheme]), if_pos hscheme]
    simp only [parse_img_url, hup, hc, hhost, hport, hrp]
  · intro up rp s u hup h1 h2
    have hc : get_client u = Except.error ("unsupported schema " ++ u.scheme) := by
      unfold get_client
      rw [if_neg h1, if_neg h2]
    refine ⟨?_, ?_⟩
    · simp only [parse_img_url, hup, hc]
    · unfold default_schema_port
      rw [if_neg h1, if_neg h2]

/-- Witness for C8 at a concrete https URL. -/
theorem c8_reference_derivation_witness :
    parse_img_url
        (fun _ => Except.ok (Url.mk "https" [] none (some "ghcr.io") "/org/img"))
        (fun _ => Except.ok (Reference.mk "ghcr.io:443" "org/img" none))
        "https://ghcr.io/org/img" =
      Except.ok (ClientProtocol.Https, Reference.mk "ghcr.io:443" "org/img" none,
        "ghcr.io" ++ ":" ++ toString (443 : Nat) ++ "/org/img") :=
  c8_reference_derivation.2.2.1
      (fun _ => Except.ok (Url.mk "https" [] none (some "ghcr.io") "/org/img"))
      (fun _ => Except.ok (Reference.mk "ghcr.io:443" "org/img" none))
      "https://ghcr.io/org/img" (Url.mk "https" [] none (some "ghcr.io") "/org/img")
      "ghcr.io" (Reference.mk "ghcr.io:443" "org/img" none) rfl rfl rfl rfl

/-- C3: a push whose file-path check fails, or whose bytes fail wasm
validation after a successful read, fails with the corresponding error before
any registry step: its event trace holds no client/reference derivation,
authentication or upload event. -/
theorem c3_push_fails_before_network :
    (∀ (env : PushEnv) (file img : String) (u p : List Nat),
        env.file_is_file = false →
        wasm_push env file img u p =
          (Except.error (file ++ " is not a regular file"), [Event.checkFile])) ∧
    (∀ (env : PushEnv) (file img : String) (u p m : List Nat) (e : String),
        env.file_is_file = true → env.readResult = Except.ok m →
        env.validate m = Except.error e →
        wasm_push env file img u p =
          (Except.error e, [Event.checkFile, Event.readFile, Event.validateWasm])) ∧
    (∀ e ∈ [Event.checkFile, Event.readFile, Event.validateWasm],
        registryStep e = false) := by
  refine ⟨?_, ?_, by decide⟩
  · intro env file img u p h
    unfold wasm_push
    rw [if_pos h]
  · intro env file img u p m e h1 h2 h3
    simp only [wasm_push, h1, h2, h3, Bool.true_eq_false, if_false]

/-- Witness for C3 at a concrete environment whose path check fails. -/
theorem c3_push_fails_before_network_witness :
    wasm_push
        (PushEnv.mk false (Except.ok []) (fun _ => Except.ok ())
          (fun _ => Except.error "e") (fun _ => Except.error "e")
          (fun _ _ _ _ => Except.error "e"))
        "a.wasm" "http://h/r" [1] [2] =
      (Except.error ("a.wasm" ++ " is not a regular file"), [Event.checkFile]) :=
  c3_push_fails_before_network.1
    (PushEnv.mk false (Except.ok []) (fun _ => Except.ok ())
      (fun _ => Except.error "e") (fun _ => Except.error "e")
      (fun _ _ _ _ => Except.error "e"))
    "a.wasm" "http://h/r" [1] [2] rfl

/-- C10: the top-level pull opens or creates the output file before the
network flow runs — every trace starts with the file-open event — and when
the output file did not previously exist and the inner pull fails for any
reason, the failed call leaves an empty file behind. -/
theorem c10_pull_creates_file_before_network :
    (∀ (env : PullEnv) (fs : Option (List Nat)) (args : PullArgs),
        ((pull env fs args).2.2).head? = some Event.openOutFile) ∧
    (∀ (env : PullEnv) (args : PullArgs) (e : String),
        (wasm_pull env args.image_url args.username args.password).1 =
          Except.error e →
        pull env none args =
          (Except.error e, some [],
            Event.openOutFile ::
              (wasm_pull env args.image_url args.username args.password).2)) := by
  refine ⟨?_, ?_⟩
  · intro env fs args
    unfold pull
    rcases hw : wasm_pull env args.image_url args.username args.password with ⟨r, tr⟩
    cases r <;> rfl
  · intro env args e h
    unfold pull
    rcases hw : wasm_pull env args.image_url args.username args.password with ⟨r, tr⟩
    rw [hw] at h
    cases r with
    | error e2 =>
      have h2 : Except.error (α := List Nat) e2 = Except.error e := h
      injection h2 with h3
      rw [h3]
      rfl
    | ok d =>
      have h2 : Except.ok (ε := String) d = Except.error e := h
      exact Except.noConfusion h2

/-- Witness for C10: pulling with an unparseable URL into a nonexistent file
fails yet creates the empty output file. -/
theorem c10_pull_creates_file_before_network_witness :
    pull
        (PullEnv.mk (fun _ => Except.error "relative URL without a base")
          (fun _ => Except.error "e") (fun _ _ _ => Except.error "e")
          (fun _ => Except.ok ()))
        none (PullArgs.mk "out.wasm" "bad url" [] []) =
      (Except.error "relative URL without a base", some [],
        [Event.openOutFile, Event.deriveRef]) :=
  c10_pull_creates_file_before_network.2
    (PullEnv.mk (fun _ => Except.error "relative URL without a base")
      (fun _ => Except.error "e") (fun _ _ _ => Except.error "e")
      (fun _ => Except.ok ()))
    (PullArgs.mk "out.wasm" "bad url" [] []) "relative URL without a base" rfl

/-- Push environment whose registry upload answers with manifest URL "A"; all
other collaborators succeed. -/
def pushEnvA : PushEnv :=
  { file_is_file := true
    readResult := Except.ok [0]
    validate := fun _ => Except.ok ()
    urlParse := fun _ => Except.ok (Url.mk "http" [] none (some "h") "/r")
    refParse := fun _ => Except.ok (Reference.mk "h:80" "r" none)
    clientPush := fun _ _ _ _ => Except.ok (PushResponse.mk "http://registry/manifests/A") }

/-- Same as `pushEnvA` except the registry upload answers manifest URL "B". -/
def pushEnvB : PushEnv :=
  { pushEnvA with
    clientPush := fun _ _ _ _ => Except.ok (PushResponse.mk "http://registry/manifests/B") }

/-- C1 counterexample: two push runs identical except for the manifest URL
the registry upload produces succeed with the same unit result, so the value
a successful `wasm_push` returns cannot carry the resulting manifest URL
back to the caller. -/
theorem c1_counterexample_manifest_url_discarded :
    wasm_push pushEnvA "f.wasm" "http://h/r" [1] [2] =
      wasm_push pushEnvB "f.wasm" "http://h/r" [1] [2] ∧
    (wasm_push pushEnvA "f.wasm" "http://h/r" [1] [2]).1 = Except.ok () ∧
    pushEnvA.clientPush (Reference.mk "h:80" "r" none)
        [ImageLayer.mk [0] WASM_LAYER_MEDIA_TYPE]
        (Config.mk [123, 125] WASM_CONFIG_MEDIA_TYPE) (RegistryAuth.Basic [1] [2]) =
      Except.ok (PushResponse.mk "http://registry/manifests/A") ∧
    pushEnvB.clientPush (Reference.mk "h:80" "r" none)
        [ImageLayer.mk [0] WASM_LAYER_MEDIA_TYPE]
        (Config.mk [123, 125] WASM_CONFIG_MEDIA_TYPE) (RegistryAuth.Basic [1] [2]) =
      Except.ok (PushResponse.mk "http://registry/manifests/B") ∧
    "http://registry/manifests/A" ≠ "http://registry/manifests/B" :=
  ⟨rfl, rfl, rfl, rfl, by decide⟩

/-- C1 amended: on success `wasm_push` returns unit, discarding the manifest
URL; the inner `push_wasm_to_registry` is what returns the registry
response's manifest URL. -/
theorem c1_amended_manifest_url_only_inner :
    (∀ (cp : Reference → List ImageLayer → Config → RegistryAuth →
          Except String PushResponse)
        (auth : RegistryAuth) (reference : Reference) (module : List Nat)
        (ann : Option (List (String × String))) (resp : PushResponse),
        cp reference [ImageLayer.mk module WASM_LAYER_MEDIA_TYPE]
            (Config.mk [123, 125] WASM_CONFIG_MEDIA_TYPE) auth = Except.ok resp →
        push_wasm_to_registry cp auth reference module ann =
          Except.ok resp.manifest_url) ∧
    (∀ (env : PushEnv) (file img : String) (u p : List Nat) (c : ClientProtocol)
        (reference : Reference) (repo : String) (m : List Nat) (murl : String),
        env.file_is_file = true → env.readResult = Except.ok m →
        env.validate m = Except.ok () →
        parse_img_url env.urlParse env.refParse img = Except.ok (c, reference, repo) →
        push_wasm_to_registry env.clientPush (get_registry_auth u p) reference m none =
          Except.ok murl →
        wasm_push env file img u p =
          (Except.ok (), [Event.checkFile, Event.readFile, Event.validateWasm,
            Event.deriveRef, Event.netPush])) := by
  refine ⟨?_, ?_⟩
  · intro cp auth reference module ann resp h
    simp only [push_wasm_to_registry, h]
  · intro env file img u p c reference repo m murl h1 h2 h3 h4 h5
    simp only [wasm_push, h1, h2, h3, h4, h5, Bool.true_eq_false, if_false]

/-- Witness for the amended C1 at the concrete "A"-environment. -/
theorem c1_amended_manifest_url_only_inner_witness :
    wasm_push pushEnvA "f.wasm" "http://h/r" [1] [2] =
      (Except.ok (), [Event.checkFile, Event.readFile, Event.validateWasm,
        Event.deriveRef, Event.netPush]) :=
  c1_amended_manifest_url_only_inner.2 pushEnvA "f.wasm" "http://h/r" [1] [2]
    ClientProtocol.Http (Reference.mk "h:80" "r" none)
    ("h" ++ ":" ++ toString (80 : Nat) ++ "/r") [0] "http://registry/manifests/A"
    rfl rfl rfl rfl rfl

/-- C2 counterexample: a login run against a nonexistent credential file with
a failing authentication probe fails, yet afterwards the file exists (empty),
created by the open-with-create step before the probe — the on-disk state is
not identical to the prior (nonexistent) state. -/
theorem c2_counterexample_missing_file_created :
    login_registry (Url.mk "http" [] none (some "example.com") "/") [117] [112] none
        (fun _ _ => Except.error "authentication failed") =
      (Except.error "authentication failed", some CredFile.empty) ∧
    some CredFile.empty ≠ (none : Option CredFile) :=
  ⟨rfl, by simp⟩

/-- C2 amended: whenever the probe step of a login fails, no record is
written: a credential file that existed keeps its exact prior content, and a
file that did not exist is left as the empty file produced by the
open-with-create step that preceded the probe. -/
theorem c2_amended_failed_probe_writes_nothing (url : Url) (h : String)
    (user token : List Nat) (probe : Reference → RegistryAuth → Except String Unit)
    (e : String) (c : CredFile)
    (hhost : url.host = some h)
    (hprobe : v2_login url (LoginInfo.new h user token) probe = Except.error e) :
    (login_registry url user token (some c) probe).2 = some c ∧
    (login_registry url user token none probe).2 = some CredFile.empty := by
  constructor
  · simp only [login_registry, hhost, Option.getD]
    cases hr : read_from_file c with
    | error e2 => simp [hr]
    | ok ai => simp [hr, hprobe]
  · simp only [login_registry, hhost, Option.getD]
    simp [read_from_file, hprobe]

/-- Witness for the amended C2 at a concrete URL, existing store and failing
probe. -/
theorem c2_amended_failed_probe_writes_nothing_witness :
    (login_registry (Url.mk "http" [] none (some "example.com") "/") [117] [112]
        (some (CredFile.records [LoginInfo.new "other" [1] [2]]))
        (fun _ _ => Except.error "authentication failed")).2 =
      some (CredFile.records [LoginInfo.new "other" [1] [2]]) :=
  (c2_amended_failed_probe_writes_nothing
    (Url.mk "http" [] none (some "example.com") "/") "example.com" [117] [112]
    (fun _ _ => Except.error "authentication failed") "authentication failed"
    (CredFile.records [LoginInfo.new "other" [1] [2]]) rfl rfl).1

end BpfOci
